import Mathlib

/-!
Verification of the CodeMate editor-extension core (src/extension.js).

The development shallowly embeds the core algorithms of the extension:

* `findFunctionDefinition` — the ordered regex-shape matcher of
  `findFunctionDefinition` (extension.js:361-382).  The four anchored regular
  expressions are implemented as explicit character-list matchers with the
  same backtracking behaviour (each optional `(?:word\s+)?` group is tried
  group-present first, then group-absent; the greedy pieces `\w+`, `\s+`,
  `\s*`, `[^)]*` never need to give characters back because the character
  class that follows each of them is disjoint from the repeated class).
* `detectFunctions` — the line scanner of `detectFunctions`
  (extension.js:320-355).  The trailing-whitespace placeholder edit it
  requests from the editor is a host side effect that does not influence the
  returned name-to-range map and is not modelled.
* `extractFunctionCode` — the brace-depth body extractor
  (extension.js:413-442).
* `analyzeComplexity` — the complexity mapper (extension.js:954-996), with
  the external `typhonjs-escomplex` engine passed in as an oracle parameter.
* `calculateMaintainability` — the maintainability formula
  (extension.js:999-1009) over real numbers; `toFixed(2)` is modelled by
  `calculateMaintainabilityFixed` as rounding to two decimal places.
* `highlightComplexFunctions` — the decoration projector
  (extension.js:1157-1255); the result `Option.none` models the early
  returns that perform no `setDecorations` call, while `some` carries the
  two decoration lists and the rebuilt `complexityRanges` map.
* `handleSelectionChange` — the decision logic of the selection handler
  (extension.js:199-268), parameterised by the session state at the moment
  the dispatch decision is taken.

Documents are lists of line texts; a JavaScript string is a list of
characters.  Braces are written with their \x7b / \x7d escapes throughout.
-/

/-! ## Character and string helpers (JavaScript semantics) -/

/-- The whitespace characters relevant to the JS `\s` class and `trim()`
(the common subset actually occurring in source lines: space, tab, CR, LF,
vertical tab, form feed, NBSP). -/
def jsWhitespaceChar (c : Char) : Bool :=
  c == ' ' || c == '\t' || c == '\n' || c == '\r' || c == '\x0b' ||
    c == '\x0c' || c == '\u00A0'

/-- The JS `\w` word-character class `[A-Za-z0-9_]`. -/
def isWordChar (c : Char) : Bool :=
  c.isAlpha || c.isDigit || c == '_'

/-- JavaScript `String.prototype.trim` on a character list. -/
def jsTrimL (cs : List Char) : List Char :=
  ((cs.dropWhile jsWhitespaceChar).reverse.dropWhile jsWhitespaceChar).reverse

/-- Boolean prefix test on character lists (JS `String.prototype.startsWith`). -/
def startsWithL : List Char → List Char → Bool
  | [], _ => true
  | _ :: _, [] => false
  | p :: ps, c :: cs => p == c && startsWithL ps cs

/-- Head-is-slash test used by the `indexOf('//')` model. -/
def headIsSlash (cs : List Char) : Bool :=
  (cs.headD '\x00') == '/'

/-- Index of the first occurrence of `//` (JS `text.indexOf('//')`,
`Option.none` for `-1`). -/
def idxDblSlash : List Char → Option Nat
  | [] => none
  | c :: cs =>
    if c == '/' && headIsSlash cs then some 0
    else (idxDblSlash cs).map (· + 1)

/-! ## The four shape matchers of findFunctionDefinition

Each JS regex is anchored (`^`), so a successful match always starts at
offset 0 of the line. -/

/-- Match a literal character sequence, returning the remainder. -/
def matchLit : List Char → List Char → Option (List Char)
  | [], cs => some cs
  | _ :: _, [] => none
  | l :: ls, c :: cs => if c == l then matchLit ls cs else none

/-- Greedy `\s*`. -/
def skipWs : List Char → List Char
  | [] => []
  | c :: cs => if jsWhitespaceChar c then skipWs cs else c :: cs

/-- Greedy `\s+` (at least one whitespace character). -/
def matchWs1 : List Char → Option (List Char)
  | [] => none
  | c :: cs => if jsWhitespaceChar c then some (skipWs cs) else none

/-- Greedy capture of `(\w+)`: the captured word and the remainder. -/
def takeWord1 (cs : List Char) : Option (List Char × List Char) :=
  let w := cs.takeWhile isWordChar
  if w.isEmpty then none else some (w, cs.dropWhile isWordChar)

/-- Greedy `[^)]*`: drop characters up to the first `)`. -/
def dropNotRP (cs : List Char) : List Char :=
  cs.dropWhile (fun c => !(c == ')'))

/-- Alternatives left by an optional group `(?:w\s+)?`: the group-present
remainder first (when the literal and `\s+` both match), then the
group-absent original input, in JS backtracking order. -/
def optLitWs1 (w : List Char) (cs : List Char) : List (List Char) :=
  match matchLit w cs with
  | some rest =>
    match matchWs1 rest with
    | some rest2 => [rest2, cs]
    | none => [cs]
  | none => [cs]

/-- Alternatives left by the optional group `(?:async\s*)?` of pattern 2. -/
def optAsyncWs0 (cs : List Char) : List (List Char) :=
  match matchLit ['a', 's', 'y', 'n', 'c'] cs with
  | some rest => [skipWs rest, cs]
  | none => [cs]

/-- First alternative on which the continuation succeeds. -/
def firstSome : List (List Char) → (List Char → Option (List Char)) → Option (List Char)
  | [], _ => none
  | x :: xs, f =>
    match f x with
    | some r => some r
    | none => firstSome xs f

def litExport : List Char := ['e', 'x', 'p', 'o', 'r', 't']
def litAsync : List Char := ['a', 's', 'y', 'n', 'c']
def litFunction : List Char := ['f', 'u', 'n', 'c', 't', 'i', 'o', 'n']
def litConst : List Char := ['c', 'o', 'n', 's', 't']

/-- `^(?:export\s+)?(?:async\s+)?function\s+(\w+)\s*\(` — returns the capture. -/
def pat1 (cs : List Char) : Option (List Char) :=
  firstSome (optLitWs1 litExport cs) fun cs1 =>
    firstSome (optLitWs1 litAsync cs1) fun cs2 =>
      match matchLit litFunction cs2 with
      | none => none
      | some cs3 =>
        match matchWs1 cs3 with
        | none => none
        | some cs4 =>
          match takeWord1 cs4 with
          | none => none
          | some (name, cs5) =>
            match matchLit ['('] (skipWs cs5) with
            | none => none
            | some _ => some name

/-- `^(?:export\s+)?const\s+(\w+)\s*=\s*(?:async\s*)?\([^)]*\)\s*=>`. -/
def pat2 (cs : List Char) : Option (List Char) :=
  firstSome (optLitWs1 litExport cs) fun cs1 =>
    match matchLit litConst cs1 with
    | none => none
    | some cs2 =>
      match matchWs1 cs2 with
      | none => none
      | some cs3 =>
        match takeWord1 cs3 with
        | none => none
        | some (name, cs4) =>
          match matchLit ['='] (skipWs cs4) with
          | none => none
          | some cs5 =>
            firstSome (optAsyncWs0 (skipWs cs5)) fun cs6 =>
              match matchLit ['('] cs6 with
              | none => none
              | some cs7 =>
                match matchLit [')'] (dropNotRP cs7) with
                | none => none
                | some cs8 =>
                  match matchLit ['=', '>'] (skipWs cs8) with
                  | none => none
                  | some _ => some name

/-- `^(?:export\s+)?const\s+(\w+)\s*=\s*function\s*\(`. -/
def pat3 (cs : List Char) : Option (List Char) :=
  firstSome (optLitWs1 litExport cs) fun cs1 =>
    match matchLit litConst cs1 with
    | none => none
    | some cs2 =>
      match matchWs1 cs2 with
      | none => none
      | some cs3 =>
        match takeWord1 cs3 with
        | none => none
        | some (name, cs4) =>
          match matchLit ['='] (skipWs cs4) with
          | none => none
          | some cs5 =>
            match matchLit litFunction (skipWs cs5) with
            | none => none
            | some cs6 =>
              match matchLit ['('] (skipWs cs6) with
              | none => none
              | some _ => some name

/-- `^(?:export\s+)?(?:async\s+)?(\w+)\s*\([^)]*\)\s*\x7b`. -/
def pat4 (cs : List Char) : Option (List Char) :=
  firstSome (optLitWs1 litExport cs) fun cs1 =>
    firstSome (optLitWs1 litAsync cs1) fun cs2 =>
      match takeWord1 cs2 with
      | none => none
      | some (name, cs3) =>
        match matchLit ['('] (skipWs cs3) with
        | none => none
        | some cs4 =>
          match matchLit [')'] (dropNotRP cs4) with
          | none => none
          | some cs5 =>
            match matchLit ['\x7b'] (skipWs cs5) with
            | none => none
            | some _ => some name

/-- `findFunctionDefinition` (extension.js:361-382): try the four ordered
patterns; a 0-offset match (the patterns are anchored) is kept unless the
line's first `//` occurrence is at offset 0 as well, mirroring the guard
`commentIndex === -1 || match.index < commentIndex` with `match.index = 0`. -/
def findFunctionDefinition (text : String) : Option String :=
  let cs := text.data
  let result :=
    match pat1 cs with
    | some n => some n
    | none =>
      match pat2 cs with
      | some n => some n
      | none =>
        match pat3 cs with
        | some n => some n
        | none => pat4 cs
  match result with
  | none => none
  | some name =>
    match idxDblSlash cs with
    | none => some (String.mk name)
    | some k => if 0 < k then some (String.mk name) else none

/-! ## detectFunctions -/

/-- A `vscode.Range`: zero-based start/end line and character. -/
structure VRange where
  startLine : Nat
  startChar : Nat
  endLine : Nat
  endChar : Nat
deriving DecidableEq

/-- JS `Map.prototype.set`: overwrite an existing key in place, otherwise
append at the end. -/
def insertFR (m : List (String × VRange)) (k : String) (v : VRange) :
    List (String × VRange) :=
  if m.any (fun p => p.1 == k) then
    m.map (fun p => if p.1 == k then (k, v) else p)
  else m ++ [(k, v)]

/-- One iteration of the `detectFunctions` line loop (extension.js:326-348):
skip blank lines and lines whose trimmed text opens a comment, otherwise
record the first-matching shape's name with a declaration-line range
(column 0 to trimmed length). -/
def detectLine (m : List (String × VRange)) (i : Nat) (text : String) :
    List (String × VRange) :=
  let trimmed := jsTrimL text.data
  if trimmed.isEmpty || startsWithL ['/', '/'] trimmed ||
      startsWithL ['/', '*'] trimmed then m
  else
    match findFunctionDefinition text with
    | some name => insertFR m name ⟨i, 0, i, trimmed.length⟩
    | none => m

/-- The `for (let i = 0; i < document.lineCount; i++)` loop. -/
def detectGo (i : Nat) : List String → List (String × VRange) → List (String × VRange)
  | [], m => m
  | text :: rest, m => detectGo (i + 1) rest (detectLine m i text)

/-- `detectFunctions` (extension.js:320-355): the rebuilt name-to-range map
(`state.functionRanges` is cleared first, so the fold starts from `[]`). -/
def detectFunctions (doc : List String) : List (String × VRange) :=
  detectGo 0 doc []

/-! ## extractFunctionCode -/

/-- The character loop of `extractFunctionCode` (extension.js:426-433):
update the brace counter and the found-an-opening flag across one line. -/
def scanLine : List Char → Int → Bool → Int × Bool
  | [], d, f => (d, f)
  | c :: cs, d, f =>
    if c == '\x7b' then scanLine cs (d + 1) true
    else if c == '\x7d' then scanLine cs (d - 1) f
    else scanLine cs d f

/-- The line loop of `extractFunctionCode` (extension.js:422-440). -/
def extractLoop : List String → Int → Bool → List String → Option String
  | [], _, _, _ => none
  | text :: rest, braceCount, foundOpening, code =>
    let code' := code ++ [text]
    let s := scanLine text.data braceCount foundOpening
    if s.2 && s.1 == 0 then some (String.intercalate "\n" code')
    else extractLoop rest s.1 s.2 code'

/-- `extractFunctionCode` (extension.js:413-442) on a document given by its
line texts, starting from `startLine`. -/
def extractFunctionCode (doc : List String) (startLine : Nat) : Option String :=
  extractLoop (doc.drop startLine) 0 false []

/-- Brace balance of a single line: occurrences of `\x7b` minus occurrences
of `\x7d` (spec-side definition). -/
def lineDelta (s : String) : Int :=
  (s.data.countP (fun c => c == '\x7b') : Int) -
    (s.data.countP (fun c => c == '\x7d') : Int)

/-- Spec-side: cumulative brace depth at the end of line `k` (counting from
the extraction start). -/
def depthThrough (lines : List String) (k : Nat) : Int :=
  ((lines.take (k + 1)).map lineDelta).sum

/-- Spec-side: has an opening brace been seen in lines `0..k`? -/
def seenOpenThrough (lines : List String) (k : Nat) : Bool :=
  (lines.take (k + 1)).any (fun s => s.data.any (fun c => c == '\x7b'))

/-- Spec-side: the first line index at which the running brace depth is back
to zero after an opening brace has been seen. -/
def stopLine (lines : List String) : Option Nat :=
  (List.range lines.length).find?
    (fun k => seenOpenThrough lines k && depthThrough lines k == 0)

/-- The extractor as worded by the spec: the newline-joined text through the
stop line, `Option.none` when the end of the document is reached first. -/
def specExtract (lines : List String) : Option String :=
  (stopLine lines).map (fun k => String.intercalate "\n" (lines.take (k + 1)))

/-! ## Maintainability calculator -/

/-- `calculateMaintainability` (extension.js:999-1009) before `toFixed(2)`:
`max(0, (171 - 5.2 ln(effort + 1e-5) - 0.23 cyclomatic - 16.2 ln(sloc + 1e-5)) * 100 / 171)`. -/
noncomputable def calculateMaintainability (halsteadEffort cyclomatic sloc : ℝ) : ℝ :=
  let epsilon : ℝ := 1e-5
  let effortLn := Real.log (halsteadEffort + epsilon)
  let slocLn := Real.log (sloc + epsilon)
  max 0 ((171 - 5.2 * effortLn - 0.23 * cyclomatic - 16.2 * slocLn) * 100 / 171)

/-- The numeric value of `MI.toFixed(2)`: the index rounded to two decimal
places. -/
noncomputable def calculateMaintainabilityFixed (halsteadEffort cyclomatic sloc : ℝ) : ℝ :=
  (round (calculateMaintainability halsteadEffort cyclomatic sloc * 100) : ℝ) / 100

/-! ## Complexity mapper -/

/-- One method record of the external `typhonjs-escomplex` engine
(`analysis.methods[i]`). -/
structure EngineMethod where
  name : String
  cyclomatic : Int
  halsteadEffort : ℝ
  slocLogical : ℝ
  lineStart : Int
  lineEnd : Int
  errors : List String

/-- A normalized per-function metric as built by `analyzeComplexity`.
`lines = Option.none` models a malformed entry missing its numeric line
span (guarded against in the projector). -/
structure Metric where
  name : String
  complexity : Int
  maintainability : ℝ
  lines : Option (Int × Int)
  errors : Nat

/-- `analyzeComplexity` (extension.js:954-996).  The engine is an oracle
parameter: `Except.error` models a thrown exception (caught; the
user-visible message in that branch is commented out in the source, so only
a console log happens), `Except.ok Option.none` models a null analysis or a
missing `methods` field.  The second component collects the user-visible
error messages emitted by the call. -/
noncomputable def analyzeComplexity (document : Option String)
    (engine : String → Except Unit (Option (List EngineMethod))) :
    Option (List Metric) × List String :=
  match document with
  | none => (none, ["No active document found."])
  | some sourceCode =>
    if sourceCode.isEmpty then (none, ["The file is empty or invalid."])
    else
      match engine sourceCode with
      | .error _ => (none, [])
      | .ok none => (none, ["Failed to analyze complexity. Invalid results."])
      | .ok (some methods) =>
        (some (methods.map fun data =>
          { name := data.name
            complexity := data.cyclomatic
            maintainability :=
              calculateMaintainability data.halsteadEffort (data.cyclomatic : ℝ)
                data.slocLogical
            lines := some (data.lineStart, data.lineEnd)
            errors := data.errors.length }), [])

/-! ## Highlight projector -/

/-- An inline complexity decoration: range, hover message, trailing label
and its colour. -/
structure Decoration where
  range : VRange
  hover : String
  contentText : String
  color : String
deriving DecidableEq

/-- A gutter refactor decoration. -/
structure RefDecoration where
  range : VRange
  hover : String
deriving DecidableEq

/-- Loop body of `highlightComplexFunctions` (extension.js:1177-1249) for a
single metric.  A metric without a numeric line span is skipped with a
logged warning; a span whose zero-based end line falls outside the document
makes `document.lineAt(endLine)` (or a negative `Position`) throw, which the
per-metric try/catch turns into a skip. -/
def hlStep (doc : List String)
    (acc : List Decoration × List RefDecoration × List (String × VRange))
    (metric : Metric) :
    List Decoration × List RefDecoration × List (String × VRange) :=
  match metric.lines with
  | none => acc
  | some (s, e) =>
    let startLine := s - 1
    let endLine := e - 1
    if startLine < 0 || endLine < 0 || endLine ≥ (doc.length : Int) then acc
    else
      let endN := endLine.toNat
      let range : VRange := ⟨startLine.toNat, 0, endN, (jsTrimL (doc.getD endN "").data).length⟩
      let hover :=
        if metric.complexity > 9 then
          "⚠️ High Complexity (" ++ toString metric.complexity ++
            ") - Consider refactoring \"" ++ metric.name ++ "\"."
        else
          "✓ Optimal Complexity (" ++ toString metric.complexity ++ ") - \"" ++
            metric.name ++ "\" is well-structured."
      let deco : Decoration :=
        { range := range
          hover := hover
          contentText := if metric.complexity > 9 then "⚠️ High" else "✓ Optimal"
          color := if metric.complexity > 9 then "red" else "green" }
      if metric.complexity > 9 then
        (acc.1 ++ [deco],
         acc.2.1 ++ [{ range := ⟨startLine.toNat, 0, startLine.toNat, 0⟩
                       hover := "Refactor high complexity function: " ++ metric.name }],
         insertFR acc.2.2 metric.name range)
      else
        (acc.1 ++ [deco], acc.2.1, acc.2.2)

/-- `highlightComplexFunctions` (extension.js:1157-1255).  `Option.none`
models the early returns that call `setDecorations` on nothing (no active
editor is not modelled; `lineCount < 10` is); `some (cs, rs, m)` models
setting the complexity decorations `cs`, the refactor decorations `rs` and
leaving `state.complexityRanges = m` (`oldRanges` is the map before the
call: the metric-less clearing branch does not touch it, the full path
clears and rebuilds it). -/
def highlightComplexFunctions (doc : List String) (metrics : Option (List Metric))
    (oldRanges : List (String × VRange)) :
    Option (List Decoration × List RefDecoration × List (String × VRange)) :=
  if doc.length < 10 then none
  else if metrics.isNone || (metrics.getD []).isEmpty || doc.length < 10 then
    some ([], [], oldRanges)
  else
    some ((metrics.getD []).foldl (hlStep doc) ([], [], []))

/-! ## Selection handler -/

/-- The session state read by the selection handler at the moment the
dispatch decision is taken (after the re-detection performed by
`updateDecorations` has refreshed `state.functionRanges`). -/
structure SelState where
  isEditingFunction : Bool
  lastTypingTime : Int
  lastClickTime : Int
  functionRanges : List (String × VRange)

/-- The action dispatched by the selection handler. -/
inductive SelAction where
  | idle
  | batch
  | single (name : String) (code : Option String)
deriving DecidableEq

def CLICK_DEBOUNCE_TIME : Int := 2000
def TYPING_COOLDOWN : Int := 2000

/-- The dispatch decision of `handleSelectionChange` (extension.js:199-268):
which generation action (if any) the handler fires for the primary
selection at `(selLine, selChar)`.  The decoration refresh and complexity
re-analysis the handler performs first are side effects independent of this
decision and are not replayed here. -/
def handleSelectionChange (doc : List String) (st : SelState)
    (selLine selChar : Nat) (selIsEmpty : Bool) (numSelections : Nat)
    (currentTime : Int) : SelAction :=
  if !selIsEmpty then .idle
  else
    let lineText := doc.getD selLine ""
    let lineLength : Int := (jsTrimL lineText.data).length
    let singleCheck : SelAction :=
      if ((selChar : Int) == lineLength + 5 || (selChar : Int) == lineLength + 6) &&
          currentTime - st.lastClickTime > CLICK_DEBOUNCE_TIME then
        match st.functionRanges.find? (fun p => p.2.startLine == selLine) with
        | some (name, range) => .single name (extractFunctionCode doc range.startLine)
        | none => .idle
      else .idle
    if (jsTrimL lineText.data).isEmpty then .idle
    else if st.isEditingFunction || currentTime - st.lastTypingTime < TYPING_COOLDOWN then
      .idle
    else if selLine == doc.length - 1 && st.functionRanges.length ≥ 2 &&
        currentTime - st.lastClickTime > CLICK_DEBOUNCE_TIME then
      let isBatchClick := (selChar : Int) ≥ lineLength - 2 && (selChar : Int) ≤ lineLength + 1
      if isBatchClick && numSelections > 1 then .batch
      else singleCheck
    else singleCheck

/-- Offset of the stopping line relative to the extraction start, for an
arbitrary incoming brace count and found-an-opening flag (proof
intermediary between `extractLoop` and `stopLine`). -/
def stopSearch : List String → Int → Bool → Option Nat
  | [], _, _ => none
  | t :: rest, d, f =>
    let d' := d + lineDelta t
    let f' := f || t.data.any (fun c => c == '\x7b')
    if f' && d' == 0 then some 0
    else (stopSearch rest d' f').map (· + 1)

/-! ## Claims about the complexity mapper and the projector -/

/-- C7: on empty document text, `analyzeComplexity` returns null, emits
exactly one user-visible error message ("The file is empty or invalid."),
and — being a total function of its inputs here — lets no exception escape,
whatever the external engine would have done. -/
theorem claim_C7_thm (engine : String → Except Unit (Option (List EngineMethod))) :
    analyzeComplexity (some "") engine = (none, ["The file is empty or invalid."]) := rfl

/-- C2 counterexample: on a 5-line document with an empty metric list,
`highlightComplexFunctions` returns through the `lineCount < 10` early
return without calling `setDecorations` at all (result `Option.none`), so
it does not set the two decoration lists to empty as the claim states. -/
theorem claim_C2_counterexample :
    highlightComplexFunctions ["a", "b", "c", "d", "e"] (some []) [] = none ∧
    highlightComplexFunctions ["a", "b", "c", "d", "e"] (some []) [] ≠
      some ([], [], []) := by
  constructor
  · rfl
  · intro h
    exact Option.noConfusion (rfl.trans h)

/-- C2 (amended): if the document has at least 10 lines and the metric list
is absent or empty, the projector clears both decoration lists (sets both
to empty, leaving the ranges map untouched); if the document has fewer than
10 lines it instead returns without performing any decoration call. -/
theorem claim_C2_amended_thm (doc : List String) (metrics : Option (List Metric))
    (oldRanges : List (String × VRange)) :
    (doc.length < 10 → highlightComplexFunctions doc metrics oldRanges = none) ∧
    (10 ≤ doc.length → (metrics = none ∨ metrics = some []) →
      highlightComplexFunctions doc metrics oldRanges = some ([], [], oldRanges)) := by
  constructor
  · intro h
    simp [highlightComplexFunctions, h]
  · intro h hm
    have h' : ¬ doc.length < 10 := by omega
    rcases hm with rfl | rfl <;> simp [highlightComplexFunctions, h']

/-- Witness for C2 (amended) at a 10-line and at a 1-line document. -/
theorem claim_C2_witness :
    highlightComplexFunctions ["l1", "l2", "l3", "l4", "l5", "l6", "l7", "l8", "l9", "l10"]
      (some []) [("x", ⟨0, 0, 0, 2⟩)] = some ([], [], [("x", ⟨0, 0, 0, 2⟩)]) ∧
    highlightComplexFunctions ["a"] (some []) [] = none := by
  refine ⟨(claim_C2_amended_thm _ _ _).2 (by decide) (Or.inr rfl),
    (claim_C2_amended_thm _ _ _).1 (by decide)⟩

/-- C8: a metric named "foo" with complexity 12 and 1-based line span 3-10,
processed against the hard-coded threshold 9 on a document of at least 10
lines, is classified high (warning-style decoration, "⚠️ High" label) and
its zero-based range (2,0)-(9,trimmed length of line 9) is recorded in the
`complexityRanges` map under the key "foo"; a metric with the same span
whose complexity is at or below 9 is classified optimal ("✓ Optimal") and
is recorded nowhere. -/
theorem claim_C8_thm (doc : List String) (oldRanges : List (String × VRange))
    (hlen : 10 ≤ doc.length) (m : Metric) (hm : m.lines = some (3, 10)) :
    (m.complexity > 9 →
      highlightComplexFunctions doc (some [m]) oldRanges =
        some ([{ range := ⟨2, 0, 9, (jsTrimL (doc.getD 9 "").data).length⟩
                 hover := "⚠️ High Complexity (" ++ toString m.complexity ++
                   ") - Consider refactoring \"" ++ m.name ++ "\"."
                 contentText := "⚠️ High", color := "red" }],
              [{ range := ⟨2, 0, 2, 0⟩
                 hover := "Refactor high complexity function: " ++ m.name }],
              [(m.name, ⟨2, 0, 9, (jsTrimL (doc.getD 9 "").data).length⟩)])) ∧
    (m.complexity ≤ 9 →
      highlightComplexFunctions doc (some [m]) oldRanges =
        some ([{ range := ⟨2, 0, 9, (jsTrimL (doc.getD 9 "").data).length⟩
                 hover := "✓ Optimal Complexity (" ++ toString m.complexity ++
                   ") - \"" ++ m.name ++ "\" is well-structured."
                 contentText := "✓ Optimal", color := "green" }],
              [], [])) := by
  have h10 : ¬ doc.length < 10 := by omega
  have h9 : 9 < doc.length := by omega
  have hcast : ¬ ((10 : Int) - 1 ≥ (doc.length : Int)) := by
    push_cast
    omega
  constructor
  · intro hc
    simp [highlightComplexFunctions, h10, h9, hlStep, hm, hcast, hc, insertFR,
      show ¬ ((3 : Int) - 1 < 0) by norm_num, show ¬ ((10 : Int) - 1 < 0) by norm_num]
  · intro hc
    have hc' : ¬ m.complexity > 9 := by omega
    simp [highlightComplexFunctions, h10, h9, hlStep, hm, hcast, hc', insertFR,
      show ¬ ((3 : Int) - 1 < 0) by norm_num, show ¬ ((10 : Int) - 1 < 0) by norm_num]

/-- Witness for C8 on a concrete 10-line document, with a complexity-12 and
a complexity-5 metric. -/
theorem claim_C8_witness :
    highlightComplexFunctions ["l1", "l2", "l3", "l4", "l5", "l6", "l7", "l8", "l9", " end "]
      (some [(⟨"foo", 12, 0, some (3, 10), 0⟩ : Metric)]) [] =
      some ([{ range := ⟨2, 0, 9, 3⟩
               hover := "⚠️ High Complexity (12) - Consider refactoring \"foo\"."
               contentText := "⚠️ High", color := "red" }],
            [{ range := ⟨2, 0, 2, 0⟩
               hover := "Refactor high complexity function: foo" }],
            [("foo", ⟨2, 0, 9, 3⟩)]) ∧
    highlightComplexFunctions ["l1", "l2", "l3", "l4", "l5", "l6", "l7", "l8", "l9", " end "]
      (some [(⟨"bar", 5, 0, some (3, 10), 0⟩ : Metric)]) [] =
      some ([{ range := ⟨2, 0, 9, 3⟩
               hover := "✓ Optimal Complexity (5) - \"bar\" is well-structured."
               contentText := "✓ Optimal", color := "green" }],
            [], []) := by
  constructor
  · have h := (claim_C8_thm ["l1", "l2", "l3", "l4", "l5", "l6", "l7", "l8", "l9", " end "]
      [] (by decide) ⟨"foo", 12, 0, some (3, 10), 0⟩ rfl).1 (by decide)
    exact h.trans (by decide)
  · have h := (claim_C8_thm ["l1", "l2", "l3", "l4", "l5", "l6", "l7", "l8", "l9", " end "]
      [] (by decide) ⟨"bar", 5, 0, some (3, 10), 0⟩ rfl).2 (by decide)
    exact h.trans (by decide)

/-! ## Claims about the selection handler -/

/-- C6 counterexample: a single caret-only selection on the last line,
inside the end-of-line column window, with two functions detected and the
2000 ms click debounce elapsed, does NOT dispatch batch generation — the
code additionally requires `event.selections.length > 1`, and with exactly
one selection the handler dispatches nothing. -/
theorem claim_C6_counterexample :
    handleSelectionChange ["function a() \x7b", "\x7d", "xyz"]
      { isEditingFunction := false, lastTypingTime := 0, lastClickTime := 0,
        functionRanges := [("f", ⟨0, 0, 0, 5⟩), ("g", ⟨1, 0, 1, 5⟩)] }
      2 2 true 1 10000 = SelAction.idle ∧
    handleSelectionChange ["function a() \x7b", "\x7d", "xyz"]
      { isEditingFunction := false, lastTypingTime := 0, lastClickTime := 0,
        functionRanges := [("f", ⟨0, 0, 0, 5⟩), ("g", ⟨1, 0, 1, 5⟩)] }
      2 2 true 1 10000 ≠ SelAction.batch := by
  constructor
  · decide
  · decide

/-- C6 (amended): the batch dispatch fires when, in addition to the claim's
conditions (caret-only primary selection on the last line within the
end-of-line column window, at least two detected functions, click debounce
elapsed), the event carries more than one selection, the landed line is not
blank, and the editing/typing-cooldown guards pass. -/
theorem claim_C6_amended_thm (doc : List String) (st : SelState)
    (selLine selChar numSelections : Nat) (currentTime : Int)
    (hline : selLine = doc.length - 1)
    (hblank : (jsTrimL (doc.getD selLine "").data).isEmpty = false)
    (hedit : st.isEditingFunction = false)
    (htype : 2000 ≤ currentTime - st.lastTypingTime)
    (hsize : 2 ≤ st.functionRanges.length)
    (hclick : 2000 < currentTime - st.lastClickTime)
    (hwin1 : ((jsTrimL (doc.getD selLine "").data).length : Int) - 2 ≤ (selChar : Int))
    (hwin2 : (selChar : Int) ≤ ((jsTrimL (doc.getD selLine "").data).length : Int) + 1)
    (hmulti : 1 < numSelections) :
    handleSelectionChange doc st selLine selChar true numSelections currentTime =
      SelAction.batch := by
  simp only [handleSelectionChange]
  split_ifs with h1 h2 h3 h4 h5 h6 h7 <;>
    first
      | rfl
      | (exfalso; simp_all [TYPING_COOLDOWN, CLICK_DEBOUNCE_TIME]; try omega)

/-- Witness for C6 (amended): the counterexample's configuration with a
second selection in the event dispatches the batch action. -/
theorem claim_C6_witness :
    handleSelectionChange ["function a() \x7b", "\x7d", "xyz"]
      { isEditingFunction := false, lastTypingTime := 0, lastClickTime := 0,
        functionRanges := [("f", ⟨0, 0, 0, 5⟩), ("g", ⟨1, 0, 1, 5⟩)] }
      2 2 true 2 10000 = SelAction.batch :=
  claim_C6_amended_thm _ _ _ _ _ _ (by decide) (by decide) rfl (by decide)
    (by decide) (by decide) (by decide) (by decide) (by decide)

/-! ## Claims about the maintainability calculator -/

lemma log_hundredK_gt_eleven : (11 : ℝ) < Real.log 100000 := by
  rw [Real.lt_log_iff_exp_lt (by norm_num)]
  have h1 : Real.exp 11 = Real.exp 1 ^ (11 : ℕ) := by
    rw [← Real.exp_nat_mul]
    norm_num
  have h2 : Real.exp 1 ^ (11 : ℕ) < 2.7182818286 ^ (11 : ℕ) :=
    pow_lt_pow_left₀ Real.exp_one_lt_d9 (Real.exp_pos 1).le (by norm_num)
  have h3 : (2.7182818286 : ℝ) ^ (11 : ℕ) < 100000 := by norm_num
  linarith

lemma log_epsilon_lt : Real.log ((1e-5 : ℝ)) < -11 := by
  have h : (1e-5 : ℝ) = (100000 : ℝ)⁻¹ := by norm_num
  rw [h, Real.log_inv]
  linarith [log_hundredK_gt_eleven]

lemma maintainability_zero_gt : 237 < calculateMaintainability 0 0 0 := by
  have h := log_epsilon_lt
  have h0 : (0 : ℝ) + 1e-5 = 1e-5 := by norm_num
  refine lt_of_lt_of_le ?_ (le_max_right _ _)
  rw [h0]
  linarith

lemma maintainability_fixed_zero_gt : 200 < calculateMaintainabilityFixed 0 0 0 := by
  have h := maintainability_zero_gt
  have hr : calculateMaintainability 0 0 0 * 100 - 1 / 2 <
      ((round (calculateMaintainability 0 0 0 * 100) : ℤ) : ℝ) := by
    rw [round_eq]
    have hf := Int.sub_one_lt_floor (calculateMaintainability 0 0 0 * 100 + 1 / 2)
    linarith
  unfold calculateMaintainabilityFixed
  linarith

/-- C1 counterexample: with the ε = 1e-5 convention actually used by
`calculateMaintainability` (extension.js:999-1009), the index at
`(0, 0, 0)` is about 244.08, far above 100, so it is not approximately 100
within the 2-decimal rounding. -/
theorem claim_C1_counterexample : 200 < calculateMaintainabilityFixed 0 0 0 := by
  linarith [maintainability_fixed_zero_gt]

/-- C1 (amended): under the ε = 1e-5 convention,
`calculateMaintainability(0, 0, 0)` strictly exceeds 100 even after the
2-decimal rounding (the value is ≈ 244.08; it would be 100 only under the
`ln(x + 1)` variant found in src/src/modules/utils.js:232-236), and the
result is never negative for any inputs. -/
theorem claim_C1_amended_thm :
    100 < calculateMaintainabilityFixed 0 0 0 ∧
    ∀ e c s : ℝ, 0 ≤ calculateMaintainability e c s ∧
      0 ≤ calculateMaintainabilityFixed e c s := by
  constructor
  · linarith [maintainability_fixed_zero_gt]
  · intro e c s
    have h1 : (0 : ℝ) ≤ calculateMaintainability e c s := le_max_left _ _
    refine ⟨h1, ?_⟩
    have h2 : (0 : ℤ) ≤ round (calculateMaintainability e c s * 100) := by
      rw [round_eq]
      exact Int.floor_nonneg.mpr (by linarith)
    unfold calculateMaintainabilityFixed
    have h3 : (0 : ℝ) ≤ ((round (calculateMaintainability e c s * 100) : ℤ) : ℝ) := by
      exact_mod_cast h2
    linarith

lemma maintainability_mono_cyclomatic (e s : ℝ) {c1 c2 : ℝ} (h : c1 ≤ c2) :
    calculateMaintainability e c2 s ≤ calculateMaintainability e c1 s := by
  refine max_le_max le_rfl ?_
  linarith

lemma maintainability_mono_effort (c s : ℝ) {e1 e2 : ℝ} (h0 : 0 ≤ e1) (h : e1 ≤ e2) :
    calculateMaintainability e2 c s ≤ calculateMaintainability e1 c s := by
  refine max_le_max le_rfl ?_
  have heps : (0 : ℝ) < 1e-5 := by norm_num
  have hl : Real.log (e1 + 1e-5) ≤ Real.log (e2 + 1e-5) :=
    Real.log_le_log (by linarith) (by linarith)
  linarith

lemma fixed_mono {a b c d e f : ℝ}
    (h : calculateMaintainability a b c ≤ calculateMaintainability d e f) :
    calculateMaintainabilityFixed a b c ≤ calculateMaintainabilityFixed d e f := by
  unfold calculateMaintainabilityFixed
  have hr : round (calculateMaintainability a b c * 100) ≤
      round (calculateMaintainability d e f * 100) := by
    rw [round_eq, round_eq]
    exact Int.floor_le_floor (by linarith)
  have hr' : ((round (calculateMaintainability a b c * 100) : ℤ) : ℝ) ≤
      ((round (calculateMaintainability d e f * 100) : ℤ) : ℝ) := by exact_mod_cast hr
  linarith

/-- C9: the maintainability index (including its 2-decimal rounding) is
monotonically non-increasing in the cyclomatic argument with effort and
sloc fixed, and monotonically non-increasing in the effort argument (over
non-negative efforts) with cyclomatic and sloc fixed. -/
theorem claim_C9_thm (e s c : ℝ) {c1 c2 e1 e2 : ℝ}
    (hc : c1 ≤ c2) (he0 : 0 ≤ e1) (he : e1 ≤ e2) :
    calculateMaintainabilityFixed e c2 s ≤ calculateMaintainabilityFixed e c1 s ∧
    calculateMaintainabilityFixed e2 c s ≤ calculateMaintainabilityFixed e1 c s := by
  exact ⟨fixed_mono (maintainability_mono_cyclomatic e s hc),
    fixed_mono (maintainability_mono_effort c s he0 he)⟩

/-- Witness for C9 at cyclomatic 0 ≤ 1 and effort 0 ≤ 1. -/
theorem claim_C9_witness :
    calculateMaintainabilityFixed 0 1 0 ≤ calculateMaintainabilityFixed 0 0 0 ∧
    calculateMaintainabilityFixed 1 0 0 ≤ calculateMaintainabilityFixed 0 0 0 :=
  claim_C9_thm 0 0 0 (by norm_num) (by norm_num) (by norm_num)
/-! ## Claim about the body extractor -/

lemma scanLine_eq (cs : List Char) : ∀ (d : Int) (f : Bool),
    scanLine cs d f =
      (d + ((cs.countP (fun c => c == '\x7b') : Int) -
            (cs.countP (fun c => c == '\x7d') : Int)),
       f || cs.any (fun c => c == '\x7b')) := by
  induction cs with
  | nil => intro d f; simp [scanLine]
  | cons c cs ih =>
    intro d f
    simp only [scanLine]
    by_cases h1 : c = '\x7b'
    · subst h1
      rw [if_pos (by decide), ih]
      simp only [List.countP_cons, List.any_cons, Prod.mk.injEq]
      constructor
      · simp +decide
        try push_cast
        try ring
      · simp
    · by_cases h2 : c = '\x7d'
      · subst h2
        rw [if_neg (by decide), if_pos (by decide), ih]
        simp only [List.countP_cons, List.any_cons, Prod.mk.injEq]
        constructor
        · simp +decide
          try push_cast
          try ring
        · simp +decide
      · rw [if_neg (by simpa using h1), if_neg (by simpa using h2), ih]
        simp only [List.countP_cons, List.any_cons, Prod.mk.injEq]
        constructor
        · simp [beq_iff_eq, h1, h2]
        · have hb : (c == '\x7b') = false := by simp [h1]
          rw [hb]
          simp

lemma extractLoop_eq_stopSearch (lines : List String) :
    ∀ (d : Int) (f : Bool) (code : List String),
    extractLoop lines d f code =
      (stopSearch lines d f).map
        (fun k => String.intercalate "\n" (code ++ lines.take (k + 1))) := by
  induction lines with
  | nil => intro d f code; simp [extractLoop, stopSearch]
  | cons t rest ih =>
    intro d f code
    rw [extractLoop, scanLine_eq]
    simp only [stopSearch]
    by_cases hstop : ((f || t.data.any (fun c => c == '\x7b')) &&
        ((d + lineDelta t) == 0)) = true
    · rw [if_pos ?side, if_pos hstop]
      case side =>
        simpa [lineDelta] using hstop
      simp
    · rw [if_neg ?side, if_neg hstop, ih]
      case side =>
        simpa [lineDelta] using hstop
      rw [Option.map_map]
      have harg : (d + ((t.data.countP (fun c => c == '\x7b') : Int) -
          (t.data.countP (fun c => c == '\x7d') : Int))) = d + lineDelta t := by
        simp [lineDelta]
      rw [harg]
      congr 1
      funext k
      simp [List.take_succ_cons]

lemma stopSearch_eq_find (lines : List String) :
    ∀ (d : Int) (f : Bool),
    stopSearch lines d f =
      (List.range lines.length).find?
        (fun k => (f || seenOpenThrough lines k) && (d + depthThrough lines k == 0)) := by
  induction lines with
  | nil => intro d f; simp [stopSearch]
  | cons t rest ih =>
    intro d f
    have hdelta : depthThrough (t :: rest) 0 = lineDelta t := by
      simp [depthThrough]
    have hseen : seenOpenThrough (t :: rest) 0 = t.data.any (fun c => c == '\x7b') := by
      simp [seenOpenThrough]
    have hdeltaS : ∀ k, depthThrough (t :: rest) (k + 1) = lineDelta t + depthThrough rest k := by
      intro k
      simp [depthThrough, List.take_succ_cons]
    have hseenS : ∀ k, seenOpenThrough (t :: rest) (k + 1) =
        (t.data.any (fun c => c == '\x7b') || seenOpenThrough rest k) := by
      intro k
      simp [seenOpenThrough, List.take_succ_cons]
    simp only [stopSearch, List.length_cons, List.range_succ_eq_map, List.find?_cons]
    by_cases hstop : ((f || t.data.any (fun c => c == '\x7b')) &&
        ((d + lineDelta t) == 0)) = true
    · rw [if_pos hstop]
      have h0 : ((f || seenOpenThrough (t :: rest) 0) &&
          (d + depthThrough (t :: rest) 0 == 0)) = true := by
        rw [hseen, hdelta]
        exact hstop
      simp only [h0]
    · rw [if_neg hstop, ih]
      have h0 : ((f || seenOpenThrough (t :: rest) 0) &&
          (d + depthThrough (t :: rest) 0 == 0)) = false := by
        rw [hseen, hdelta]
        simpa using hstop
      simp only [h0, List.find?_map]
      refine congrArg (Option.map Nat.succ) (congrArg₂ List.find? (funext fun k => ?_) rfl)
      simp only [Function.comp_apply, hdeltaS, hseenS, Bool.or_assoc, add_assoc]

/-- C3: `extractFunctionCode` agrees exactly with the specification: it
returns the newline-joined text from `startLine` through the first line at
which the per-line brace-depth counter returns to zero after at least one
opening brace has been seen, and `Option.none` when the end of the document
is reached first. -/
theorem claim_C3_thm (doc : List String) (startLine : Nat) :
    extractFunctionCode doc startLine = specExtract (doc.drop startLine) := by
  rw [extractFunctionCode, extractLoop_eq_stopSearch, stopSearch_eq_find, specExtract, stopLine]
  have hpred : (fun k => (false || seenOpenThrough (doc.drop startLine) k) &&
      ((0 : Int) + depthThrough (doc.drop startLine) k == 0)) =
      (fun k => seenOpenThrough (doc.drop startLine) k &&
        (depthThrough (doc.drop startLine) k == 0)) := by
    funext k
    simp
  rw [hpred]
  congr 1
/-! ## Claims about the function-boundary detector -/

lemma wordChar_cases {c : Char} (h : jsWhitespaceChar c = true) :
    c = ' ' ∨ c = '\t' ∨ c = '\n' ∨ c = '\r' ∨ c = '\x0b' ∨ c = '\x0c' ∨ c = '\u00A0' := by
  simp only [jsWhitespaceChar, Bool.or_eq_true, beq_iff_eq] at h
  tauto

lemma wordChar_not_ws {c : Char} (h : isWordChar c = true) : jsWhitespaceChar c = false := by
  by_contra hne
  rw [Bool.not_eq_false] at hne
  rcases wordChar_cases hne with rfl | rfl | rfl | rfl | rfl | rfl | rfl <;>
    exact absurd h (by decide)

lemma wordChar_ne_slash {c : Char} (h : isWordChar c = true) : ¬ c = '/' := by
  intro heq
  subst heq
  exact absurd h (by decide)

lemma matchLit_append (w rest : List Char) : matchLit w (w ++ rest) = some rest := by
  induction w with
  | nil => simp [matchLit]
  | cons a w ih => simp [matchLit, ih]

lemma skipWs_cons_not {c : Char} (cs : List Char) (h : jsWhitespaceChar c = false) :
    skipWs (c :: cs) = c :: cs := by
  simp [skipWs, h]

lemma takeWhile_word_append (w rest : List Char)
    (hw : ∀ c ∈ w, isWordChar c = true)
    (hrest : ∀ c, rest.head? = some c → isWordChar c = false) :
    (w ++ rest).takeWhile isWordChar = w := by
  induction w with
  | nil =>
    cases rest with
    | nil => simp
    | cons r rs => simp [List.takeWhile_cons, hrest r rfl]
  | cons a w ih =>
    simp [List.takeWhile_cons, hw a (by simp),
      ih (fun c hc => hw c (List.mem_cons_of_mem _ hc))]

lemma dropWhile_word_append (w rest : List Char)
    (hw : ∀ c ∈ w, isWordChar c = true)
    (hrest : ∀ c, rest.head? = some c → isWordChar c = false) :
    (w ++ rest).dropWhile isWordChar = rest := by
  induction w with
  | nil =>
    cases rest with
    | nil => simp
    | cons r rs => simp [List.dropWhile_cons, hrest r rfl]
  | cons a w ih =>
    simp [List.dropWhile_cons, hw a (by simp),
      ih (fun c hc => hw c (List.mem_cons_of_mem _ hc))]

lemma takeWord1_append (w rest : List Char)
    (hne : w ≠ []) (hw : ∀ c ∈ w, isWordChar c = true)
    (hrest : ∀ c, rest.head? = some c → isWordChar c = false) :
    takeWord1 (w ++ rest) = some (w, rest) := by
  unfold takeWord1
  rw [takeWhile_word_append w rest hw hrest, dropWhile_word_append w rest hw hrest]
  simp [hne]

lemma dropNotRP_append (args rest : List Char) (h : ∀ c ∈ args, ¬ c = ')') :
    dropNotRP (args ++ ')' :: rest) = ')' :: rest := by
  induction args with
  | nil => simp [dropNotRP, List.dropWhile_cons]
  | cons a args ih =>
    simp only [dropNotRP, List.cons_append, List.dropWhile_cons] at ih ⊢
    rw [if_pos (by simp [h a (by simp)])]
    exact ih (fun c hc => h c (List.mem_cons_of_mem _ hc))

lemma idxDblSlash_cons_ne {c : Char} (cs : List Char) (h : ¬ c = '/') :
    idxDblSlash (c :: cs) = (idxDblSlash cs).map (· + 1) := by
  simp [idxDblSlash, h]

lemma firstSome_singleton (x : List Char) (f : List Char → Option (List Char)) :
    firstSome [x] f = f x := by
  cases h : f x <;> simp [firstSome, h]

lemma optLitWs1_of_none {w : List Char} (cs : List Char) (h : matchLit w cs = none) :
    optLitWs1 w cs = [cs] := by
  simp [optLitWs1, h]

lemma matchLit_head_ne {l : Char} (ls : List Char) {c : Char} (cs : List Char)
    (h : ¬ c = l) : matchLit (l :: ls) (c :: cs) = none := by
  simp [matchLit, h]

lemma dropWhile_append_last {p : Char → Bool} (xs : List Char) (c : Char) (h : p c = false) :
    (xs ++ [c]).dropWhile p = xs.dropWhile p ++ [c] := by
  induction xs with
  | nil => simp [List.dropWhile_cons, h]
  | cons a xs ih =>
    by_cases hp : p a <;> simp [List.dropWhile_cons, hp, ih]

lemma jsTrimL_cons {c : Char} (l : List Char) (h : jsWhitespaceChar c = false) :
    jsTrimL (c :: l) = c :: ((l.reverse.dropWhile jsWhitespaceChar).reverse) := by
  unfold jsTrimL
  rw [List.dropWhile_cons, if_neg (by simp [h]), List.reverse_cons,
    dropWhile_append_last _ _ h]
  simp
lemma data_mk_eq (l : List Char) : (String.mk l).data = l := rfl

lemma find_guard {c : Char} (cs : List Char) (name : List Char) (hc : ¬ c = '/')
    (hres : (match pat1 (c :: cs) with
             | some n => some n
             | none =>
               match pat2 (c :: cs) with
               | some n => some n
               | none =>
                 match pat3 (c :: cs) with
                 | some n => some n
                 | none => pat4 (c :: cs)) = some name) :
    findFunctionDefinition ⟨c :: cs⟩ = some ⟨name⟩ := by
  unfold findFunctionDefinition
  simp only [data_mk_eq]
  rw [hres, idxDblSlash_cons_ne _ hc]
  cases hidx : idxDblSlash cs <;> simp

lemma find_shape1 (name rest : List Char) (hne : name ≠ [])
    (hw : ∀ c ∈ name, isWordChar c = true) :
    findFunctionDefinition ⟨'f' :: 'u' :: 'n' :: 'c' :: 't' :: 'i' :: 'o' :: 'n' :: ' ' ::
      (name ++ '(' :: rest)⟩ = some ⟨name⟩ := by
  obtain ⟨n0, name', rfl⟩ : ∃ a l, name = a :: l := by
    cases name with
    | nil => exact absurd rfl hne
    | cons a l => exact ⟨a, l, rfl⟩
  have hn0 : isWordChar n0 = true := hw n0 (by simp)
  have hskip1 : skipWs ((n0 :: name') ++ '(' :: rest) = (n0 :: name') ++ '(' :: rest := by
    rw [List.cons_append]
    exact skipWs_cons_not _ (wordChar_not_ws hn0)
  have htake : takeWord1 ((n0 :: name') ++ '(' :: rest) = some (n0 :: name', '(' :: rest) :=
    takeWord1_append _ _ (by simp) hw (by intro c hc; simp at hc; subst hc; decide)
  have hskip2 : skipWs ('(' :: rest) = '(' :: rest := skipWs_cons_not _ (by decide)
  apply find_guard _ _ (by decide)
  have hp1 : pat1 ('f' :: 'u' :: 'n' :: 'c' :: 't' :: 'i' :: 'o' :: 'n' :: ' ' ::
      ((n0 :: name') ++ '(' :: rest)) = some (n0 :: name') := by
    rw [pat1, litExport, litAsync, litFunction]
    rw [optLitWs1_of_none _ (matchLit_head_ne _ _ (by decide)), firstSome_singleton]
    rw [optLitWs1_of_none _ (matchLit_head_ne _ _ (by decide)), firstSome_singleton]
    have hlit : matchLit ['f', 'u', 'n', 'c', 't', 'i', 'o', 'n']
        ('f' :: 'u' :: 'n' :: 'c' :: 't' :: 'i' :: 'o' :: 'n' :: ' ' ::
          ((n0 :: name') ++ '(' :: rest)) =
        some (' ' :: ((n0 :: name') ++ '(' :: rest)) := by
      simp +decide [matchLit]
    have hws : matchWs1 (' ' :: ((n0 :: name') ++ '(' :: rest)) =
        some (skipWs ((n0 :: name') ++ '(' :: rest)) := by
      simp +decide [matchWs1]
    simp only [hlit, hws, hskip1, htake, hskip2]
    simp [matchLit]
  rw [hp1]
lemma find_shape2 (name args rest : List Char) (hne : name ≠ [])
    (hw : ∀ c ∈ name, isWordChar c = true) (hargs : ∀ c ∈ args, ¬ c = ')') :
    findFunctionDefinition ⟨'c' :: 'o' :: 'n' :: 's' :: 't' :: ' ' ::
      (name ++ (' ' :: '=' :: ' ' :: '(' ::
        (args ++ ')' :: ' ' :: '=' :: '>' :: rest)))⟩ = some ⟨name⟩ := by
  obtain ⟨n0, name', rfl⟩ : ∃ a l, name = a :: l := by
    cases name with
    | nil => exact absurd rfl hne
    | cons a l => exact ⟨a, l, rfl⟩
  have hn0 : isWordChar n0 = true := hw n0 (by simp)
  have hskip1 : skipWs ((n0 :: name') ++ (' ' :: '=' :: ' ' :: '(' ::
      (args ++ ')' :: ' ' :: '=' :: '>' :: rest))) =
      (n0 :: name') ++ (' ' :: '=' :: ' ' :: '(' ::
      (args ++ ')' :: ' ' :: '=' :: '>' :: rest)) := by
    rw [List.cons_append]
    exact skipWs_cons_not _ (wordChar_not_ws hn0)
  have htake : takeWord1 ((n0 :: name') ++ (' ' :: '=' :: ' ' :: '(' ::
      (args ++ ')' :: ' ' :: '=' :: '>' :: rest))) =
      some (n0 :: name', ' ' :: '=' :: ' ' :: '(' ::
        (args ++ ')' :: ' ' :: '=' :: '>' :: rest)) :=
    takeWord1_append _ _ (by simp) hw (by intro c hc; simp at hc; subst hc; decide)
  have hdrop : dropNotRP (args ++ ')' :: ' ' :: '=' :: '>' :: rest) =
      ')' :: ' ' :: '=' :: '>' :: rest := dropNotRP_append _ _ hargs
  apply find_guard _ _ (by decide)
  have hp1 : pat1 ('c' :: 'o' :: 'n' :: 's' :: 't' :: ' ' ::
      ((n0 :: name') ++ (' ' :: '=' :: ' ' :: '(' ::
        (args ++ ')' :: ' ' :: '=' :: '>' :: rest)))) = none := by
    rw [pat1, litExport, litAsync, litFunction]
    rw [optLitWs1_of_none _ (matchLit_head_ne _ _ (by decide)), firstSome_singleton]
    rw [optLitWs1_of_none _ (matchLit_head_ne _ _ (by decide)), firstSome_singleton]
    rw [matchLit_head_ne _ _ (by decide)]
  have hp2 : pat2 ('c' :: 'o' :: 'n' :: 's' :: 't' :: ' ' ::
      ((n0 :: name') ++ (' ' :: '=' :: ' ' :: '(' ::
        (args ++ ')' :: ' ' :: '=' :: '>' :: rest)))) = some (n0 :: name') := by
    rw [pat2, litExport, litConst]
    rw [optLitWs1_of_none _ (matchLit_head_ne _ _ (by decide)), firstSome_singleton]
    have hm1 : matchLit ['c', 'o', 'n', 's', 't'] ('c' :: 'o' :: 'n' :: 's' :: 't' :: ' ' ::
        ((n0 :: name') ++ (' ' :: '=' :: ' ' :: '(' ::
          (args ++ ')' :: ' ' :: '=' :: '>' :: rest)))) =
        some (' ' :: ((n0 :: name') ++ (' ' :: '=' :: ' ' :: '(' ::
          (args ++ ')' :: ' ' :: '=' :: '>' :: rest)))) := by
      simp +decide [matchLit]
    have hws : matchWs1 (' ' :: ((n0 :: name') ++ (' ' :: '=' :: ' ' :: '(' ::
        (args ++ ')' :: ' ' :: '=' :: '>' :: rest)))) =
        some (skipWs ((n0 :: name') ++ (' ' :: '=' :: ' ' :: '(' ::
          (args ++ ')' :: ' ' :: '=' :: '>' :: rest)))) := by
      simp +decide [matchWs1]
    simp only [hm1, hws, hskip1, htake]
    have hs1 : skipWs (' ' :: '=' :: ' ' :: '(' :: (args ++ ')' :: ' ' :: '=' :: '>' :: rest)) =
        '=' :: ' ' :: '(' :: (args ++ ')' :: ' ' :: '=' :: '>' :: rest) := by
      simp +decide [skipWs]
    have hs2 : skipWs (' ' :: '(' :: (args ++ ')' :: ' ' :: '=' :: '>' :: rest)) =
        '(' :: (args ++ ')' :: ' ' :: '=' :: '>' :: rest) := by
      simp +decide [skipWs]
    have hs3 : skipWs (' ' :: '=' :: '>' :: rest) = '=' :: '>' :: rest := by
      simp +decide [skipWs]
    simp only [hs1, matchLit, if_pos, beq_self_eq_true, if_true]
    simp only [hs2]
    rw [optAsyncWs0, matchLit_head_ne _ _ (by decide), firstSome_singleton]
    simp only [matchLit, beq_self_eq_true, if_true, hdrop]
    try simp +decide [hs3, matchLit]
  rw [hp1, hp2]
lemma find_shape3 (name rest : List Char) (hne : name ≠ [])
    (hw : ∀ c ∈ name, isWordChar c = true) :
    findFunctionDefinition ⟨'c' :: 'o' :: 'n' :: 's' :: 't' :: ' ' ::
      (name ++ (' ' :: '=' :: ' ' :: 'f' :: 'u' :: 'n' :: 'c' :: 't' :: 'i' :: 'o' :: 'n' ::
        '(' :: rest))⟩ = some ⟨name⟩ := by
  obtain ⟨n0, name', rfl⟩ : ∃ a l, name = a :: l := by
    cases name with
    | nil => exact absurd rfl hne
    | cons a l => exact ⟨a, l, rfl⟩
  have hn0 : isWordChar n0 = true := hw n0 (by simp)
  have hskip1 : skipWs ((n0 :: name') ++ (' ' :: '=' :: ' ' :: 'f' :: 'u' :: 'n' :: 'c' ::
      't' :: 'i' :: 'o' :: 'n' :: '(' :: rest)) =
      (n0 :: name') ++ (' ' :: '=' :: ' ' :: 'f' :: 'u' :: 'n' :: 'c' ::
      't' :: 'i' :: 'o' :: 'n' :: '(' :: rest) := by
    rw [List.cons_append]
    exact skipWs_cons_not _ (wordChar_not_ws hn0)
  have htake : takeWord1 ((n0 :: name') ++ (' ' :: '=' :: ' ' :: 'f' :: 'u' :: 'n' :: 'c' ::
      't' :: 'i' :: 'o' :: 'n' :: '(' :: rest)) =
      some (n0 :: name', ' ' :: '=' :: ' ' :: 'f' :: 'u' :: 'n' :: 'c' ::
        't' :: 'i' :: 'o' :: 'n' :: '(' :: rest) :=
    takeWord1_append _ _ (by simp) hw (by intro c hc; simp at hc; subst hc; decide)
  apply find_guard _ _ (by decide)
  have hp1 : pat1 ('c' :: 'o' :: 'n' :: 's' :: 't' :: ' ' ::
      ((n0 :: name') ++ (' ' :: '=' :: ' ' :: 'f' :: 'u' :: 'n' :: 'c' :: 't' :: 'i' :: 'o' ::
        'n' :: '(' :: rest))) = none := by
    rw [pat1, litExport, litAsync, litFunction]
    rw [optLitWs1_of_none _ (matchLit_head_ne _ _ (by decide)), firstSome_singleton]
    rw [optLitWs1_of_none _ (matchLit_head_ne _ _ (by decide)), firstSome_singleton]
    rw [matchLit_head_ne _ _ (by decide)]
  have hm1 : matchLit ['c', 'o', 'n', 's', 't'] ('c' :: 'o' :: 'n' :: 's' :: 't' :: ' ' ::
      ((n0 :: name') ++ (' ' :: '=' :: ' ' :: 'f' :: 'u' :: 'n' :: 'c' :: 't' :: 'i' :: 'o' ::
        'n' :: '(' :: rest))) =
      some (' ' :: ((n0 :: name') ++ (' ' :: '=' :: ' ' :: 'f' :: 'u' :: 'n' :: 'c' :: 't' ::
        'i' :: 'o' :: 'n' :: '(' :: rest))) := by
    simp +decide [matchLit]
  have hws : matchWs1 (' ' :: ((n0 :: name') ++ (' ' :: '=' :: ' ' :: 'f' :: 'u' :: 'n' ::
      'c' :: 't' :: 'i' :: 'o' :: 'n' :: '(' :: rest))) =
      some (skipWs ((n0 :: name') ++ (' ' :: '=' :: ' ' :: 'f' :: 'u' :: 'n' :: 'c' :: 't' ::
        'i' :: 'o' :: 'n' :: '(' :: rest))) := by
    simp +decide [matchWs1]
  have hs1 : skipWs (' ' :: '=' :: ' ' :: 'f' :: 'u' :: 'n' :: 'c' :: 't' :: 'i' :: 'o' ::
      'n' :: '(' :: rest) =
      '=' :: ' ' :: 'f' :: 'u' :: 'n' :: 'c' :: 't' :: 'i' :: 'o' :: 'n' :: '(' :: rest := by
    simp +decide [skipWs]
  have hs2 : skipWs (' ' :: 'f' :: 'u' :: 'n' :: 'c' :: 't' :: 'i' :: 'o' :: 'n' ::
      '(' :: rest) =
      'f' :: 'u' :: 'n' :: 'c' :: 't' :: 'i' :: 'o' :: 'n' :: '(' :: rest := by
    simp +decide [skipWs]
  have hp2 : pat2 ('c' :: 'o' :: 'n' :: 's' :: 't' :: ' ' ::
      ((n0 :: name') ++ (' ' :: '=' :: ' ' :: 'f' :: 'u' :: 'n' :: 'c' :: 't' :: 'i' :: 'o' ::
        'n' :: '(' :: rest))) = none := by
    rw [pat2, litExport, litConst]
    rw [optLitWs1_of_none _ (matchLit_head_ne _ _ (by decide)), firstSome_singleton]
    simp only [hm1, hws, hskip1, htake, hs1, matchLit, beq_self_eq_true, if_true]
    simp only [hs2]
    rw [optAsyncWs0, matchLit_head_ne _ _ (by decide), firstSome_singleton]
    rw [matchLit_head_ne _ _ (by decide)]
  have hp3 : pat3 ('c' :: 'o' :: 'n' :: 's' :: 't' :: ' ' ::
      ((n0 :: name') ++ (' ' :: '=' :: ' ' :: 'f' :: 'u' :: 'n' :: 'c' :: 't' :: 'i' :: 'o' ::
        'n' :: '(' :: rest))) = some (n0 :: name') := by
    rw [pat3, litExport, litConst, litFunction]
    rw [optLitWs1_of_none _ (matchLit_head_ne _ _ (by decide)), firstSome_singleton]
    simp only [hm1, hws, hskip1, htake, hs1, matchLit, beq_self_eq_true, if_true]
    try simp only [hs2]
    try simp +decide [matchLit, skipWs]
  rw [hp1, hp2, hp3]

lemma find_shape4 (name args rest : List Char) (hne : name ≠ [])
    (hw : ∀ c ∈ name, isWordChar c = true) (hargs : ∀ c ∈ args, ¬ c = ')')
    (hh : ∀ c, name.head? = some c → ¬ c = 'e' ∧ ¬ c = 'a' ∧ ¬ c = 'f' ∧ ¬ c = 'c') :
    findFunctionDefinition ⟨name ++ ('(' :: (args ++ ')' :: ' ' :: '\x7b' :: rest))⟩ =
      some ⟨name⟩ := by
  obtain ⟨n0, name', rfl⟩ : ∃ a l, name = a :: l := by
    cases name with
    | nil => exact absurd rfl hne
    | cons a l => exact ⟨a, l, rfl⟩
  have hn0 : isWordChar n0 = true := hw n0 (by simp)
  obtain ⟨hn0e, hn0a, hn0f, hn0c⟩ := hh n0 rfl
  have htake : takeWord1 ((n0 :: name') ++ ('(' :: (args ++ ')' :: ' ' :: '\x7b' :: rest))) =
      some (n0 :: name', '(' :: (args ++ ')' :: ' ' :: '\x7b' :: rest)) :=
    takeWord1_append _ _ (by simp) hw (by intro c hc; simp at hc; subst hc; decide)
  have hdrop : dropNotRP (args ++ ')' :: ' ' :: '\x7b' :: rest) =
      ')' :: ' ' :: '\x7b' :: rest := dropNotRP_append _ _ hargs
  have hs1 : skipWs ('(' :: (args ++ ')' :: ' ' :: '\x7b' :: rest)) =
      '(' :: (args ++ ')' :: ' ' :: '\x7b' :: rest) := skipWs_cons_not _ (by decide)
  have hs2 : skipWs (' ' :: '\x7b' :: rest) = '\x7b' :: rest := by
    simp +decide [skipWs]
  rw [List.cons_append]
  apply find_guard _ _ (wordChar_ne_slash hn0)
  rw [← List.cons_append]
  have hp1 : pat1 ((n0 :: name') ++ ('(' :: (args ++ ')' :: ' ' :: '\x7b' :: rest))) =
      none := by
    rw [pat1, litExport, litAsync, litFunction, List.cons_append]
    rw [optLitWs1_of_none _ (matchLit_head_ne _ _ hn0e), firstSome_singleton]
    rw [optLitWs1_of_none _ (matchLit_head_ne _ _ hn0a), firstSome_singleton]
    rw [matchLit_head_ne _ _ hn0f]
  have hp2 : pat2 ((n0 :: name') ++ ('(' :: (args ++ ')' :: ' ' :: '\x7b' :: rest))) =
      none := by
    rw [pat2, litExport, litConst, List.cons_append]
    rw [optLitWs1_of_none _ (matchLit_head_ne _ _ hn0e), firstSome_singleton]
    rw [matchLit_head_ne _ _ hn0c]
  have hp3 : pat3 ((n0 :: name') ++ ('(' :: (args ++ ')' :: ' ' :: '\x7b' :: rest))) =
      none := by
    rw [pat3, litExport, litConst, List.cons_append]
    rw [optLitWs1_of_none _ (matchLit_head_ne _ _ hn0e), firstSome_singleton]
    rw [matchLit_head_ne _ _ hn0c]
  have hp4 : pat4 ((n0 :: name') ++ ('(' :: (args ++ ')' :: ' ' :: '\x7b' :: rest))) =
      some (n0 :: name') := by
    rw [pat4, litExport, litAsync, List.cons_append]
    rw [optLitWs1_of_none _ (matchLit_head_ne _ _ hn0e), firstSome_singleton]
    rw [optLitWs1_of_none _ (matchLit_head_ne _ _ hn0a), firstSome_singleton]
    rw [← List.cons_append]
    simp only [htake, hs1, matchLit, beq_self_eq_true, if_true, hdrop]
    try simp +decide [hs2, matchLit]
  rw [hp1, hp2, hp3, hp4]
lemma find_comment (s : List Char) : findFunctionDefinition ⟨'/' :: '/' :: s⟩ = none := by
  unfold findFunctionDefinition
  simp only [data_mk_eq]
  have hp1 : pat1 ('/' :: '/' :: s) = none := by
    rw [pat1, litExport, litAsync, litFunction]
    rw [optLitWs1_of_none _ (matchLit_head_ne _ _ (by decide)), firstSome_singleton]
    rw [optLitWs1_of_none _ (matchLit_head_ne _ _ (by decide)), firstSome_singleton]
    rw [matchLit_head_ne _ _ (by decide)]
  have hp2 : pat2 ('/' :: '/' :: s) = none := by
    rw [pat2, litExport, litConst]
    rw [optLitWs1_of_none _ (matchLit_head_ne _ _ (by decide)), firstSome_singleton]
    rw [matchLit_head_ne _ _ (by decide)]
  have hp3 : pat3 ('/' :: '/' :: s) = none := by
    rw [pat3, litExport, litConst]
    rw [optLitWs1_of_none _ (matchLit_head_ne _ _ (by decide)), firstSome_singleton]
    rw [matchLit_head_ne _ _ (by decide)]
  have hp4 : pat4 ('/' :: '/' :: s) = none := by
    rw [pat4, litExport, litAsync]
    rw [optLitWs1_of_none _ (matchLit_head_ne _ _ (by decide)), firstSome_singleton]
    rw [optLitWs1_of_none _ (matchLit_head_ne _ _ (by decide)), firstSome_singleton]
    simp +decide [takeWord1, List.takeWhile_cons]
  rw [hp1, hp2, hp3, hp4]

lemma detect_single (c : Char) (cs' : List Char) (name : List Char)
    (hcws : jsWhitespaceChar c = false) (hcsl : ¬ c = '/')
    (hfind : findFunctionDefinition ⟨c :: cs'⟩ = some ⟨name⟩) :
    ∃ r, detectFunctions [⟨c :: cs'⟩] = [(⟨name⟩, r)] := by
  have hsl : ¬ '/' = c := fun h => hcsl h.symm
  refine ⟨⟨0, 0, 0, (jsTrimL (c :: cs')).length⟩, ?_⟩
  simp only [detectFunctions, detectGo, detectLine, data_mk_eq, jsTrimL_cons _ hcws]
  simp [startsWithL, hsl, hfind, insertFR]

lemma trimRight_cons {c : Char} (l : List Char) (h : jsWhitespaceChar c = false) :
    ((c :: l).reverse.dropWhile jsWhitespaceChar).reverse =
      c :: ((l.reverse.dropWhile jsWhitespaceChar).reverse) := by
  rw [List.reverse_cons, dropWhile_append_last _ _ h]
  simp

lemma detect_comment (s : List Char) : detectFunctions [⟨'/' :: '/' :: s⟩] = [] := by
  have htrim : jsTrimL ('/' :: '/' :: s) =
      '/' :: '/' :: ((s.reverse.dropWhile jsWhitespaceChar).reverse) := by
    rw [jsTrimL_cons _ (by decide), trimRight_cons _ (by decide)]
  simp only [detectFunctions, detectGo, detectLine, data_mk_eq, htrim]
  simp [startsWithL]
/-- C4: each of the four supported declaration shapes — named function
declaration, const-arrow, const-function-expression and bare method
shorthand — is recognised by the detector on a well-formed instance (word
name; argument text free of `)` for the shapes whose pattern consumes the
argument list; for the bare shorthand a name not beginning with the letters
opening the literal keywords of the other patterns), and the entry is
recorded under the declared name; a line whose `//` token opens the line —
the only position an anchored match could sit behind — is recognised by
neither the matcher nor the detector. -/
theorem claim_C4_thm (name1 name2 name3 name4 args2 args4 rest1 rest2 rest3 rest4 s : List Char)
    (h1 : name1 ≠ []) (hw1 : ∀ c ∈ name1, isWordChar c = true)
    (h2 : name2 ≠ []) (hw2 : ∀ c ∈ name2, isWordChar c = true)
    (h3 : name3 ≠ []) (hw3 : ∀ c ∈ name3, isWordChar c = true)
    (h4 : name4 ≠ []) (hw4 : ∀ c ∈ name4, isWordChar c = true)
    (ha2 : ∀ c ∈ args2, ¬ c = ')') (ha4 : ∀ c ∈ args4, ¬ c = ')')
    (hh4 : ∀ c, name4.head? = some c → ¬ c = 'e' ∧ ¬ c = 'a' ∧ ¬ c = 'f' ∧ ¬ c = 'c') :
    (∃ r, detectFunctions [⟨'f' :: 'u' :: 'n' :: 'c' :: 't' :: 'i' :: 'o' :: 'n' :: ' ' ::
        (name1 ++ '(' :: rest1)⟩] = [(⟨name1⟩, r)]) ∧
    (∃ r, detectFunctions [⟨'c' :: 'o' :: 'n' :: 's' :: 't' :: ' ' ::
        (name2 ++ (' ' :: '=' :: ' ' :: '(' ::
          (args2 ++ ')' :: ' ' :: '=' :: '>' :: rest2)))⟩] = [(⟨name2⟩, r)]) ∧
    (∃ r, detectFunctions [⟨'c' :: 'o' :: 'n' :: 's' :: 't' :: ' ' ::
        (name3 ++ (' ' :: '=' :: ' ' :: 'f' :: 'u' :: 'n' :: 'c' :: 't' :: 'i' :: 'o' :: 'n' ::
          '(' :: rest3))⟩] = [(⟨name3⟩, r)]) ∧
    (∃ r, detectFunctions [⟨name4 ++ ('(' :: (args4 ++ ')' :: ' ' :: '\x7b' :: rest4))⟩] =
      [(⟨name4⟩, r)]) ∧
    findFunctionDefinition ⟨'/' :: '/' :: s⟩ = none ∧
    detectFunctions [⟨'/' :: '/' :: s⟩] = [] := by
  refine ⟨?_, ?_, ?_, ?_, find_comment s, detect_comment s⟩
  · exact detect_single _ _ _ (by decide) (by decide) (find_shape1 name1 rest1 h1 hw1)
  · exact detect_single _ _ _ (by decide) (by decide)
      (find_shape2 name2 args2 rest2 h2 hw2 ha2)
  · exact detect_single _ _ _ (by decide) (by decide) (find_shape3 name3 rest3 h3 hw3)
  · obtain ⟨n0, name', rfl⟩ : ∃ a l, name4 = a :: l := by
      cases name4 with
      | nil => exact absurd rfl h4
      | cons a l => exact ⟨a, l, rfl⟩
    have hn0 : isWordChar n0 = true := hw4 n0 (by simp)
    have hfind := find_shape4 (n0 :: name') args4 rest4 h4 hw4 ha4 hh4
    rw [List.cons_append] at hfind ⊢
    exact detect_single _ _ _ (wordChar_not_ws hn0) (wordChar_ne_slash hn0) hfind

/-- Witness for C4: the four concrete declarations
`function add(a, b) {`, `const mul = (a, b) => a * b;`,
`const div = function(a, b) { return a / b; }` and `go(r) {`, plus the
commented-out declaration `// function ghost(x) {`. -/
theorem claim_C4_witness :
    (∃ r, detectFunctions ["function add(a, b) \x7b"] = [("add", r)]) ∧
    (∃ r, detectFunctions ["const mul = (a, b) => a * b;"] = [("mul", r)]) ∧
    (∃ r, detectFunctions ["const div = function(a, b) \x7b return a / b; \x7d"] =
      [("div", r)]) ∧
    (∃ r, detectFunctions ["go(r) \x7b"] = [("go", r)]) ∧
    findFunctionDefinition "// function ghost(x) \x7b" = none ∧
    detectFunctions ["// function ghost(x) \x7b"] = [] :=
  claim_C4_thm ['a', 'd', 'd'] ['m', 'u', 'l'] ['d', 'i', 'v'] ['g', 'o']
    ['a', ',', ' ', 'b'] ['r'] "a, b) \x7b".data " a * b;".data
    "a, b) \x7b return a / b; \x7d".data [] " function ghost(x) \x7b".data
    (by decide) (by decide) (by decide) (by decide) (by decide) (by decide)
    (by decide) (by decide) (by decide) (by decide) (by decide)

lemma insertFR_mem {m : List (String × VRange)} {k : String} {v : VRange} :
    ∀ p ∈ insertFR m k v, p = (k, v) ∨ p ∈ m := by
  intro p hp
  unfold insertFR at hp
  split at hp
  · rcases List.mem_map.mp hp with ⟨q, hq, hq2⟩
    by_cases h : q.1 == k
    · rw [if_pos h] at hq2
      exact Or.inl hq2.symm
    · rw [if_neg h] at hq2
      exact Or.inr (hq2 ▸ hq)
  · rcases List.mem_append.mp hp with h | h
    · exact Or.inr h
    · simp at h
      exact Or.inl h

lemma detectLine_mem (m : List (String × VRange)) (i : Nat) (text : String) :
    ∀ p ∈ detectLine m i text, p ∈ m ∨
      ∃ name, findFunctionDefinition text = some name ∧
        p = (name, ⟨i, 0, i, (jsTrimL text.data).length⟩) := by
  intro p hp
  simp only [detectLine] at hp
  split at hp
  · exact Or.inl hp
  · split at hp
    · rcases insertFR_mem p hp with h | h
      · exact Or.inr ⟨_, by assumption, h⟩
      · exact Or.inl h
    · exact Or.inl hp

lemma detectLine_of_none (m : List (String × VRange)) (i : Nat) (text : String)
    (h : findFunctionDefinition text = none) : detectLine m i text = m := by
  simp only [detectLine, h]
  split <;> rfl

lemma detectGo_mem (P : String × VRange → Prop) :
    ∀ (lines : List String) (i : Nat) (m : List (String × VRange)),
      (∀ p ∈ m, P p) →
      (∀ (k : Nat) (text : String), lines[k]? = some text →
        ∀ name, findFunctionDefinition text = some name →
          P (name, ⟨i + k, 0, i + k, (jsTrimL text.data).length⟩)) →
      ∀ p ∈ detectGo i lines m, P p := by
  intro lines
  induction lines with
  | nil =>
    intro i m hm _ p hp
    exact hm p (by simpa [detectGo] using hp)
  | cons t rest ih =>
    intro i m hm hstep p hp
    simp only [detectGo] at hp
    refine ih (i + 1) _ ?_ ?_ p hp
    · intro q hq
      rcases detectLine_mem m i t q hq with hq' | ⟨name, hfind, rfl⟩
      · exact hm q hq'
      · simpa using hstep 0 t (by simp) name hfind
    · intro k text hk name hfind
      have h := hstep (k + 1) text (by simpa using hk) name hfind
      have harith : i + (k + 1) = i + 1 + k := by omega
      rw [harith] at h
      exact h

lemma detectGo_of_none : ∀ (lines : List String) (i : Nat) (m : List (String × VRange)),
    (∀ l ∈ lines, findFunctionDefinition l = none) → detectGo i lines m = m := by
  intro lines
  induction lines with
  | nil => intro i m _; rfl
  | cons t rest ih =>
    intro i m hnone
    simp only [detectGo]
    rw [detectLine_of_none m i t (hnone t (by simp))]
    exact ih (i + 1) m (fun l hl => hnone l (List.mem_cons_of_mem _ hl))

/-- C5: the detector is a total function of the document (never throws);
every range in the returned map is a declaration-line range inside the
document (`startLine = endLine < lineCount`, character 0 to trimmed
length); and when no line matches any shape pattern the returned map is
empty.  Both conjuncts hold of every document: the membership hypothesis
scopes only over the bounds part. -/
theorem claim_C5_thm (doc : List String) :
    (∀ (name : String) (r : VRange), (name, r) ∈ detectFunctions doc →
      r.startLine = r.endLine ∧ r.endLine < doc.length) ∧
    ((∀ l ∈ doc, findFunctionDefinition l = none) → detectFunctions doc = []) := by
  constructor
  · intro name r h
    have hmem := detectGo_mem
      (fun p => p.2.startLine = p.2.endLine ∧ p.2.endLine < doc.length)
      doc 0 [] (by simp) ?_ (name, r) h
    · exact hmem
    · intro k text hk _ _
      have hlt : k < doc.length := by
        by_contra hge
        rw [List.getElem?_eq_none (by omega)] at hk
        exact Option.noConfusion hk
      exact ⟨rfl, by simpa using hlt⟩
  · intro hnone
    exact detectGo_of_none doc 0 [] hnone

/-- Witness for C5, exercising both conjuncts: the bounds part on the
one-line document `function w() {` (which records one entry), and the
empty-map part on the one-line document `const x = 1;` (whose only line
matches no shape pattern). -/
theorem claim_C5_witness :
    ((⟨0, 0, 0, 14⟩ : VRange).startLine = (⟨0, 0, 0, 14⟩ : VRange).endLine ∧
      (⟨0, 0, 0, 14⟩ : VRange).endLine < (["function w() \x7b"] : List String).length) ∧
    detectFunctions ["const x = 1;"] = [] :=
  ⟨(claim_C5_thm ["function w() \x7b"]).1 "w" ⟨0, 0, 0, 14⟩ (by decide),
   (claim_C5_thm ["const x = 1;"]).2 (by decide)⟩

lemma find_head_none {c : Char} (cs : List Char)
    (he : ¬ c = 'e') (ha : ¬ c = 'a') (hf : ¬ c = 'f') (hc : ¬ c = 'c')
    (hw : isWordChar c = false) :
    findFunctionDefinition ⟨c :: cs⟩ = none := by
  unfold findFunctionDefinition
  simp only [data_mk_eq]
  have hp1 : pat1 (c :: cs) = none := by
    rw [pat1, litExport, litAsync, litFunction]
    rw [optLitWs1_of_none _ (matchLit_head_ne _ _ he), firstSome_singleton]
    rw [optLitWs1_of_none _ (matchLit_head_ne _ _ ha), firstSome_singleton]
    rw [matchLit_head_ne _ _ hf]
  have hp2 : pat2 (c :: cs) = none := by
    rw [pat2, litExport, litConst]
    rw [optLitWs1_of_none _ (matchLit_head_ne _ _ he), firstSome_singleton]
    rw [matchLit_head_ne _ _ hc]
  have hp3 : pat3 (c :: cs) = none := by
    rw [pat3, litExport, litConst]
    rw [optLitWs1_of_none _ (matchLit_head_ne _ _ he), firstSome_singleton]
    rw [matchLit_head_ne _ _ hc]
  have hp4 : pat4 (c :: cs) = none := by
    rw [pat4, litExport, litAsync]
    rw [optLitWs1_of_none _ (matchLit_head_ne _ _ he), firstSome_singleton]
    rw [optLitWs1_of_none _ (matchLit_head_ne _ _ ha), firstSome_singleton]
    simp [takeWord1, List.takeWhile_cons, hw]
  rw [hp1, hp2, hp3, hp4]

lemma find_ws_none {c : Char} (cs : List Char) (h : jsWhitespaceChar c = true) :
    findFunctionDefinition ⟨c :: cs⟩ = none := by
  rcases wordChar_cases h with rfl | rfl | rfl | rfl | rfl | rfl | rfl <;>
    exact find_head_none cs (by decide) (by decide) (by decide) (by decide) (by decide)

/-- C10: every shape pattern is anchored to the raw (untrimmed) line start,
so a line beginning with a whitespace character is matched by none of them
— `findFunctionDefinition` returns null on it — and consequently every
entry the detector records points at a line whose raw text does not begin
with whitespace: indented declarations are never recorded. -/
theorem claim_C10_thm (c : Char) (cs : List Char) (h : jsWhitespaceChar c = true)
    (doc : List String) (p : String × VRange) (hp : p ∈ detectFunctions doc) :
    findFunctionDefinition ⟨c :: cs⟩ = none ∧
    ∀ c', (doc.getD p.2.startLine "").data.head? = some c' →
      jsWhitespaceChar c' = false := by
  refine ⟨find_ws_none cs h, ?_⟩
  have hmem := detectGo_mem
    (fun q => ∀ c', (doc.getD q.2.startLine "").data.head? = some c' →
      jsWhitespaceChar c' = false)
    doc 0 [] (by simp) ?_ p hp
  · exact hmem
  · intro k text hk name hfind c' hc'
    have hgd : doc.getD (0 + k) "" = text := by
      simp [List.getD_eq_getElem?_getD, hk]
    rw [hgd] at hc'
    by_contra hws
    rw [Bool.not_eq_false] at hws
    obtain ⟨t', htext⟩ : ∃ t', text.data = c' :: t' := by
      cases hdata : text.data with
      | nil => rw [hdata] at hc'; exact Option.noConfusion hc'
      | cons x xs =>
        rw [hdata] at hc'
        simp only [List.head?_cons, Option.some.injEq] at hc'
        exact ⟨xs, by rw [hc']⟩
    have hnone : findFunctionDefinition ⟨c' :: t'⟩ = none := find_ws_none t' hws
    have htext' : text = ⟨c' :: t'⟩ := by
      cases text
      simp_all
    rw [htext'] at hfind
    rw [hfind] at hnone
    exact Option.noConfusion hnone

/-- Witness for C10: the space-indented variant of `function w() {` is not
matched, and the one-entry map of the document `function w() {` points at
its unindented line. -/
theorem claim_C10_witness :
    findFunctionDefinition ⟨' ' :: "function f() \x7b".data⟩ = none ∧
    ∀ c', ((["function w() \x7b"] : List String).getD 0 "").data.head? = some c' →
      jsWhitespaceChar c' = false :=
  claim_C10_thm ' ' "function f() \x7b".data (by decide)
    ["function w() \x7b"] ("w", ⟨0, 0, 0, 14⟩) (by decide)
